import Mathlib

/-!
Shallow embedding of the EasyBuild `EB_LLVMcomponent` easyblock
(src/easybuild/easyblocks/l/llvmcomponent.py) and proofs about the
spec claims on it.  Python strings are Lean `String`s, Python lists are
Lean `List`s, `EasyBuildError` raising code is embedded as `Except`
returning functions whose error payload records which error was raised
with its format arguments.
-/

deriving instance DecidableEq for Except

/-- Python `str.lower()` (ASCII names only in this code base). -/
def pyLower (s : String) : String := String.mk (s.data.map Char.toLower)

/-- Does `cs` start with `pat`? -/
def startsWithChars : List Char → List Char → Bool
  | [], _ => true
  | _ :: _, [] => false
  | p :: ps, c :: cs => p == c && startsWithChars ps cs

/-- Does `cs` end with `suf`? -/
def endsWithChars (suf cs : List Char) : Bool :=
  startsWithChars suf.reverse cs.reverse

/-- Left-to-right non-overlapping replacement with enough fuel
(`fuel ≥ cs.length` and `old ≠ []` make the fuel irrelevant). -/
def pyReplaceAux (old new : List Char) : Nat → List Char → List Char
  | _, [] => []
  | 0, cs => cs
  | fuel + 1, c :: cs =>
    if startsWithChars old (c :: cs) then
      new ++ pyReplaceAux old new fuel (List.drop (old.length - 1) cs)
    else
      c :: pyReplaceAux old new fuel cs

/-- Python `str.replace(old, new)`: replace every non-overlapping
occurrence of `old`, scanning left to right (`old` non-empty here). -/
def pyReplace (s old new : String) : String :=
  String.mk (pyReplaceAux old.data new.data s.data.length s.data)

/-- Python `sep.join(parts)`. -/
def joinWith (sep : String) : List String → String
  | [] => ""
  | [x] => x
  | x :: y :: xs => x ++ sep ++ joinWith sep (y :: xs)

/-- `CLANG_TARGETS` (line 62): all possible build targets for Clang. -/
def CLANG_TARGETS : List String :=
  ["all", "AArch64", "AMDGPU", "ARM", "CppBackend", "Hexagon", "Mips",
   "MBlaze", "MSP430", "NVPTX", "PowerPC", "R600", "RISCV", "Sparc",
   "SystemZ", "X86", "XCore"]

/-- The EasyBuild CPU architecture constants used as keys of
`DEFAULT_TARGETS_MAP` (imported from `easybuild.tools.systemtools`),
plus a constructor for any architecture outside that set. -/
inductive CpuArch where
  | AARCH32
  | AARCH64
  | POWER
  | RISCV64
  | X86_64
  | OTHER (name : String)
deriving DecidableEq, Repr

/-- `DEFAULT_TARGETS_MAP` (lines 67-73): mapping of EasyBuild CPU
architecture names to list of default LLVM target names, kept as the
association list written in the dict literal. -/
def DEFAULT_TARGETS_MAP : List (CpuArch × List String) :=
  [(.AARCH32, ["ARM"]),
   (.AARCH64, ["AArch64"]),
   (.POWER, ["PowerPC"]),
   (.RISCV64, ["RISCV"]),
   (.X86_64, ["X86"])]

/-- `DEFAULT_TARGETS_MAP[arch]`, `None` on a `KeyError`. -/
def lookupDefaultTargets (a : CpuArch) : Option (List String) :=
  (DEFAULT_TARGETS_MAP.find? (fun p => p.1 == a)).map Prod.snd

/-- The `EasyBuildError`s that `__init__` can raise, with the format
arguments each error message interpolates. -/
inductive InitError where
  | unsupportedVersion (version : String)
  | bootstrapNotClang
  | noDefaultTargets (arch : CpuArch)
  | unknownTargets (targets : List String)
  | mblazeUnsupported
deriving DecidableEq, Repr

/- ### LooseVersion ordering -/

/-- Modelled from the spec: the "framework's loose version ordering"
(`easybuild.tools.LooseVersion`) lives in the external framework, not
under src/.  A version string is parsed into components: maximal runs
of digits become numeric components, maximal runs of lowercase letters
become string components, every other character only separates runs. -/
inductive VComp where
  | num (n : Nat)
  | txt (s : String)
deriving DecidableEq, Repr

/-- Single left-to-right pass accumulating the current run. -/
def looseCompAux : List Char → Option VComp → List VComp
  | [], none => []
  | [], some v => [v]
  | c :: cs, acc =>
    if c.isDigit then
      match acc with
      | some (VComp.num n) => looseCompAux cs (some (.num (n * 10 + (c.toNat - '0'.toNat))))
      | some v => v :: looseCompAux cs (some (.num (c.toNat - '0'.toNat)))
      | none => looseCompAux cs (some (.num (c.toNat - '0'.toNat)))
    else if 'a' ≤ c ∧ c ≤ 'z' then
      match acc with
      | some (VComp.txt s) => looseCompAux cs (some (.txt (s.push c)))
      | some v => v :: looseCompAux cs (some (.txt (String.mk [c])))
      | none => looseCompAux cs (some (.txt (String.mk [c])))
    else
      match acc with
      | some v => v :: looseCompAux cs none
      | none => looseCompAux cs none

def looseComponents (s : String) : List VComp :=
  looseCompAux s.data none

/-- Code-point lexicographic order on character lists (Python's
string `<`). -/
def charListLT : List Char → List Char → Bool
  | [], [] => false
  | [], _ :: _ => true
  | _ :: _, [] => false
  | a :: as, b :: bs =>
    if a.toNat < b.toNat then true
    else if a.toNat = b.toNat then charListLT as bs
    else false

/-- Python string `<`. -/
def strLTb (a b : String) : Bool := charListLT a.data b.data

/-- Component comparison: numeric against numeric and text against
text compare by their own orders; modelled from the spec for the mixed
case (text components order below numeric components). -/
def vcompLT : VComp → VComp → Bool
  | .num a, .num b => a < b
  | .txt a, .txt b => strLTb a b
  | .txt _, .num _ => true
  | .num _, .txt _ => false

/-- Python list comparison on the component lists (lexicographic, a
strict prefix is smaller). -/
def vlistLT : List VComp → List VComp → Bool
  | [], [] => false
  | [], _ :: _ => true
  | _ :: _, [] => false
  | a :: as, b :: bs => if vcompLT a b then true else if a == b then vlistLT as bs else false

/-- `LooseVersion(a) < LooseVersion(b)`. -/
def looseLT (a b : String) : Bool :=
  vlistLT (looseComponents a) (looseComponents b)

/- ### __init__ checks (lines 118-183) -/

/-- Lines 122-123: reject versions older than 18.1.6. -/
def versionCheck (v : String) : Except InitError Unit :=
  if looseLT v "18.1.6" then .error (.unsupportedVersion v) else .ok ()

/-- Lines 136-137: bootstrapping only supported for Clang. -/
def bootstrapCheck (bootstrap : Bool) (name : String) : Except InitError Unit :=
  if bootstrap && (pyLower name != "clang") then .error .bootstrapNotClang else .ok ()

/-- Lines 145-164: default build-target selection when the easyconfig
gives no `build_targets`.  `depNames` are the dependency names (the
code lowercases each), `cudaToolchain` is
`hasattr(self.toolchain, 'COMPILER_CUDA_FAMILY')`. -/
def defaultBuildTargets (arch : CpuArch) (depNames : List String) (cudaToolchain : Bool) :
    Except InitError (List String) :=
  let deps := depNames.map pyLower
  match lookupDefaultTargets arch with
  | none => .error (.noDefaultTargets arch)
  | some base =>
    let t1 := if deps.contains "cuda" || cudaToolchain then base ++ ["NVPTX"] else base
    let t2 := if deps.contains "rocr-runtime" then t1 ++ ["AMDGPU"] else t1
    .ok t2

/-- Line 170: the build targets that are not in `CLANG_TARGETS`. -/
def unknownOf (buildTargets : List String) : List String :=
  buildTargets.filter (fun t => !CLANG_TARGETS.contains t)

/-- Lines 170-177: reject unknown targets (naming exactly them), then
reject any list still containing `MBlaze`. -/
def validateBuildTargets (buildTargets : List String) : Except InitError Unit :=
  if unknownOf buildTargets = [] then
    if buildTargets.contains "MBlaze" then .error .mblazeUnsupported else .ok ()
  else
    .error (.unknownTargets (unknownOf buildTargets))

/-- The inputs of `__init__` that the modelled checks read. -/
structure InitInput where
  version : String
  bootstrap : Bool
  name : String
  buildTargets : Option (List String)
  depNames : List String
  arch : CpuArch
  cudaToolchain : Bool

/-- Lines 143-168: explicit targets pass through, otherwise defaults. -/
def selectTargets (inp : InitInput) : Except InitError (List String) :=
  match inp.buildTargets with
  | none => defaultBuildTargets inp.arch inp.depNames inp.cudaToolchain
  | some b => .ok b

/-- `__init__`, restricted to the checks and the build-target
selection, in source order: version check, bootstrap check, target
selection, unknown-target check, MBlaze check. -/
def initStep (inp : InitInput) : Except InitError (List String) :=
  match versionCheck inp.version with
  | .error e => .error e
  | .ok _ =>
    match bootstrapCheck inp.bootstrap inp.name with
    | .error e => .error e
    | .ok _ =>
      match selectTargets inp with
      | .error e => .error e
      | .ok bts =>
        match validateBuildTargets bts with
        | .error e => .error e
        | .ok _ => .ok bts

/- ### build stages (build_step, lines 691-703) -/

inductive Stage where
  | stage1
  | stage2
  | stage3
deriving DecidableEq, Repr

/-- `build_step`: stage 1 always builds; stages 2 and 3 build only
when `bootstrap` is set. -/
def buildStages (bootstrap : Bool) : List Stage :=
  if bootstrap then [.stage1, .stage2, .stage3] else [.stage1]

/-- Initialization followed by the build stages: an `__init__` error
aborts before any stage. -/
def runPipeline (inp : InitInput) : Except InitError (List String × List Stage) :=
  match initStep inp with
  | .error e => .error e
  | .ok bts => .ok (bts, buildStages inp.bootstrap)

/-- The stages that actually execute for a given input. -/
def executedStages (inp : InitInput) : List Stage :=
  match runPipeline inp with
  | .error _ => []
  | .ok (_, stages) => stages

/- ### build_with_prev_stage (lines 621-689): environment handling -/

/-- The process environment variables that `build_with_prev_stage`
mutates. -/
structure Env where
  path : String
  cflags : String
  cxxflags : String
deriving DecidableEq, Repr

/-- `build_with_prev_stage` restricted to its effect on the process
environment.  `prevObjBin` is `os.path.join(prev_obj, 'bin')`;
`rpath` is `build_option('rpath')`; `cmakeOk`/`makeOk` say whether the
two `run_cmd` subprocess invocations succeed.  The wrapper directory
prepend is modelled from the spec: `prepare_rpath_wrappers()` is
framework code not under src/ that places the compiler wrapper
scripts on `PATH` (the subsequent `which('clang')` resolves to them).
Returns the environment at function exit together with `true` on
normal return, or the environment at the uncaught `run_cmd` error
together with `false`. -/
def build_with_prev_stage (rpath : Bool) (wrapperDir prevObjBin : String)
    (cmakeOk makeOk : Bool) (env : Env) : Env × Bool :=
  let env1 := { env with path := prevObjBin ++ ":" ++ env.path }
  let env2 :=
    if rpath then
      { env1 with
        path := wrapperDir ++ ":" ++ env1.path,
        cflags := env1.cflags ++ " " ++ "-Wno-unused-command-line-argument",
        cxxflags := env1.cxxflags ++ " " ++ "-Wno-unused-command-line-argument" }
    else env1
  if cmakeOk then
    if makeOk then
      ({ env2 with path := env.path }, true)
    else (env2, false)
  else (env2, false)

/- ### sanity_check_step (lines 758-791): shared-library suffix rewrite -/

/-- Lines 788-791: the transformation applied to the expected-files
list when the platform shared-library suffix is not `so`:
`files = [f.replace('.so', '.%s' % shlib_ext) for f in files if f.endswith('.so')]`. -/
def sanityCheckFilesRewrite (shlibExt : String) (files : List String) : List String :=
  if shlibExt ≠ "so" then
    (files.filter (fun f => endsWithChars ".so".data f.data)).map
      (fun f => pyReplace f ".so" ("." ++ shlibExt))
  else files

/- ### project profiles (_polly_config, lines 323-333) -/

/-- The per-instance state the project configuration functions mutate. -/
structure ProjectState where
  testTargets : List String
  checkFiles : List String
  checkDirs : List String
  configopts : List String
deriving DecidableEq, Repr

/-- `__init__` (lines 129-132): the accumulators start empty. -/
def initProjectState : ProjectState :=
  { testTargets := [], checkFiles := [], checkDirs := [], configopts := [] }

/-- `_polly_config` (lines 323-333). -/
def pollyConfig (buildTargets : List String) (st : ProjectState) : ProjectState :=
  let st1 := { st with testTargets := ["check-polly"] }
  let st2 := { st1 with
    checkFiles := st1.checkFiles ++ ["lib/LLVMPolly.so", "lib/libPolly.a", "lib/libPollyISL.a"],
    checkDirs := st1.checkDirs ++ ["lib/cmake/polly", "include/polly"] }
  if buildTargets.contains "NVPTX" then
    { st2 with configopts := st2.configopts ++ ["-DPOLLY_ENABLE_GPGPU_CODEGEN=ON"] }
  else st2

/- ### configure_step (line 538): targets injection -/

/-- Line 538: `'-DLLVM_TARGETS_TO_BUILD="%s"' % ';'.join(build_targets)`. -/
def targetsConfigOpt (buildTargets : List String) : String :=
  "-DLLVM_TARGETS_TO_BUILD=" ++ "\"" ++ joinWith ";" buildTargets ++ "\""

/- ### test_step (lines 705-728): test-output interpretation -/

/-- One or more literal spaces (regex ` +`), greedy. -/
def spaces1 (cs : List Char) : Option (List Char) :=
  match cs with
  | c :: rest => if c = ' ' then some (rest.dropWhile (fun x => x == ' ')) else none
  | [] => none

/-- Match a literal character sequence. -/
def stripChars : List Char → List Char → Option (List Char)
  | [], cs => some cs
  | _ :: _, [] => none
  | p :: ps, c :: cs => if p = c then stripChars ps cs else none

/-- The numeric value of a decimal digit run. -/
def valOfDigits (ds : List Char) : Nat :=
  ds.foldl (fun n c => n * 10 + (c.toNat - '0'.toNat)) 0

/-- Regex `([0-9]+)`: a maximal non-empty digit run, its value. -/
def digits1 (cs : List Char) : Option (Nat × List Char) :=
  let ds := cs.takeWhile Char.isDigit
  if ds.isEmpty then none
  else some (valOfDigits ds, cs.dropWhile Char.isDigit)

def failedWord : List Char := ['F', 'a', 'i', 'l', 'e', 'd']

def passedWord : List Char := ['P', 'a', 's', 's', 'e', 'd']

/-- Whether a single line matches `^ +<word> +: +([0-9]+)` (lines
717 and 720) at its start, returning the captured number. -/
def matchCountLine (word : List Char) (line : List Char) : Option Nat := do
  let r1 ← spaces1 line
  let r2 ← stripChars word r1
  let r3 ← spaces1 r2
  let r4 ← stripChars [':'] r3
  let r5 ← spaces1 r4
  let (n, _) ← digits1 r5
  pure n

/-- Split at every newline (the `^` anchor positions of
`re.MULTILINE`). -/
def splitLinesAux : List Char → List Char → List (List Char)
  | [], acc => [acc.reverse]
  | c :: cs, acc =>
    if c = '\n' then acc.reverse :: splitLinesAux cs []
    else splitLinesAux cs (c :: acc)

def splitLines (out : String) : List (List Char) :=
  splitLinesAux out.data []

/-- `re.search` with `re.MULTILINE` on the whole output: the first
line (in order) whose start matches the pattern. -/
def firstCount (word : List Char) (out : String) : Option Nat :=
  (splitLines out).findSome? (matchCountLine word)

/-- Lines 717-726: `num_failed` from the output, `none` when neither
the `Failed` nor the `Passed` pattern matches anywhere. -/
def extractNumFailed (out : String) : Option Nat :=
  match firstCount failedWord out with
  | some n => some n
  | none =>
    match firstCount passedWord out with
    | some _ => some 0
    | none => none

inductive TestError where
  | cannotExtract
  | tooManyFailed (n : Nat)
deriving DecidableEq, Repr

/-- Lines 714-728 for one test target: extract the failure count and
compare it against `test_suite_max_failed`. -/
def testStepCheck (out : String) (maxFailed : Nat) : Except TestError Unit :=
  match extractNumFailed out with
  | none => .error .cannotExtract
  | some n => if n > maxFailed then .error (.tooManyFailed n) else .ok ()

/-- The claim's reading of the pattern — "anchored at line start after
OPTIONAL whitespace" — kept separate from the code's `matchCountLine`
(whose regex ` +` requires at least one space) so the two can be
compared. -/
def claimCountLine (word : List Char) (line : List Char) : Option Nat := do
  let r2 ← stripChars word (line.dropWhile (fun c => c == ' '))
  let r3 ← spaces1 r2
  let r4 ← stripChars [':'] r3
  let r5 ← spaces1 r4
  let (n, _) ← digits1 r5
  pure n

/- ### configure_step (lines 549-567): NVPTX / CUDA capabilities -/

inductive CfgError where
  | noCudaComputeCapabilities
deriving DecidableEq, Repr

/-- Python `a or b` on lists (first operand when truthy, i.e. non-empty). -/
def pyOrList (a b : List String) : List String :=
  if a.isEmpty then b else a

/-- Python `min` on a non-empty list of strings: the least element in
string order, scanning left to right (`""` is unused filler for the
empty list, which the caller has excluded).  The Lean `String` order
is the same code-point lexicographic order Python uses. -/
def pyMinString : List String → String
  | [] => ""
  | x :: xs => xs.foldl (fun m s => if strLTb s m then s else m) x

/-- Lines 550-567, given that `'NVPTX'` is among the build targets:
`ecCudaCC` is the easyconfig `cuda_compute_capabilities`, `cfgCudaCC`
the framework-level `--cuda-compute-capabilities` (each `[]` when
unset), `defaultCap` the easyconfig `default_cuda_capability`.
Returns the two appended configure options and whether the
no-default-capability warning was printed. -/
def configureNvptx (ecCudaCC cfgCudaCC : List String) (defaultCap : Option String) :
    Except CfgError (List String × Bool) :=
  let cudaCC := pyOrList cfgCudaCC ecCudaCC
  if cudaCC.isEmpty then .error .noCudaComputeCapabilities
  else
    let defaultCC :=
      match defaultCap with
      | some d => d
      | none => pyMinString cudaCC
    let warned := defaultCap.isNone
    let cudaCCs := cudaCC.map (fun cc => pyReplace cc "." "")
    let defaultCCs := pyReplace defaultCC "." ""
    .ok (["-DCLANG_OPENMP_NVPTX_DEFAULT_ARCH=sm_" ++ defaultCCs,
          "-DLIBOMPTARGET_NVPTX_COMPUTE_CAPABILITIES=" ++ joinWith "," cudaCCs],
         warned)

/- ### Helper lemmas -/

/-- Any property holding for every value list of `DEFAULT_TARGETS_MAP`
holds for every successful lookup result. -/
theorem lookupDefaultTargets_prop (P : List String → Prop)
    (hP : ∀ q ∈ DEFAULT_TARGETS_MAP, P q.2) :
    ∀ (a : CpuArch) (ts : List String), lookupDefaultTargets a = some ts → P ts := by
  intro a ts h
  unfold lookupDefaultTargets at h
  cases hf : DEFAULT_TARGETS_MAP.find? (fun p => p.1 == a) with
  | none => rw [hf] at h; simp at h
  | some pr =>
    rw [hf] at h
    simp only [Option.map_some', Option.some.injEq] at h
    exact h ▸ hP pr (List.mem_of_find?_eq_some hf)

/- ### C1 -/

/-- C1 counterexample: a stage run in rpath-wrapped mode whose
configure and build subprocesses both succeed still ends with CFLAGS
different from its pre-stage value (the appended
`-Wno-unused-command-line-argument` is never removed), refuting the
claim that every mutated variable is restored. -/
theorem cflags_not_restored_after_stage :
    (build_with_prev_stage true "/w" "/b1/bin" true true ⟨"/usr/bin", "-O2", "-O2"⟩).2 = true ∧
    (build_with_prev_stage true "/w" "/b1/bin" true true ⟨"/usr/bin", "-O2", "-O2"⟩).1.path = "/usr/bin" ∧
    (build_with_prev_stage true "/w" "/b1/bin" true true ⟨"/usr/bin", "-O2", "-O2"⟩).1.cflags ≠ "-O2" := by
  decide

/-- C1 (amended): when both subprocesses of a stage succeed, PATH is
restored to its pre-stage value but, in rpath-wrapped mode, CFLAGS and
CXXFLAGS keep the appended warning-suppression flag; when either
subprocess raises, PATH keeps the stage-prepended value and in
particular is not restored. -/
theorem env_after_build_with_prev_stage (rpath : Bool) (wrapperDir prevObjBin : String)
    (cmakeOk makeOk : Bool) (env : Env) :
    (cmakeOk = true → makeOk = true →
      build_with_prev_stage rpath wrapperDir prevObjBin cmakeOk makeOk env =
        ({ path := env.path,
           cflags := if rpath then env.cflags ++ " " ++ "-Wno-unused-command-line-argument"
                     else env.cflags,
           cxxflags := if rpath then env.cxxflags ++ " " ++ "-Wno-unused-command-line-argument"
                       else env.cxxflags }, true)) ∧
    (cmakeOk = false ∨ makeOk = false →
      (build_with_prev_stage rpath wrapperDir prevObjBin cmakeOk makeOk env).2 = false ∧
      (build_with_prev_stage rpath wrapperDir prevObjBin cmakeOk makeOk env).1.path =
        (if rpath then wrapperDir ++ ":" ++ (prevObjBin ++ ":" ++ env.path)
         else prevObjBin ++ ":" ++ env.path) ∧
      (build_with_prev_stage rpath wrapperDir prevObjBin cmakeOk makeOk env).1.path ≠ env.path) := by
  have hone : (":" : String).length = 1 := rfl
  constructor
  · intro hc hm
    subst hc; subst hm
    cases rpath <;> simp [build_with_prev_stage]
  · intro hfail
    have hiter :
        (build_with_prev_stage rpath wrapperDir prevObjBin cmakeOk makeOk env).2 = false ∧
        (build_with_prev_stage rpath wrapperDir prevObjBin cmakeOk makeOk env).1.path =
          (if rpath then wrapperDir ++ ":" ++ (prevObjBin ++ ":" ++ env.path)
           else prevObjBin ++ ":" ++ env.path) := by
      rcases hfail with hc | hm
      · subst hc; cases rpath <;> cases makeOk <;> simp [build_with_prev_stage]
      · subst hm; cases rpath <;> cases cmakeOk <;> simp [build_with_prev_stage]
    refine ⟨hiter.1, hiter.2, ?_⟩
    rw [hiter.2]
    cases rpath <;> simp only [if_true, if_false, Bool.false_eq_true, ite_false, ite_true]
    · intro h
      have := congrArg String.length h
      simp only [String.length_append, hone] at this
      omega
    · intro h
      have := congrArg String.length h
      simp only [String.length_append, hone] at this
      omega

/-- C1 amended witness at a concrete stage. -/
theorem env_after_build_with_prev_stage_witness :
    build_with_prev_stage false "/w" "/b" true true ⟨"p", "f", "g"⟩ = (⟨"p", "f", "g"⟩, true) := by
  have h := (env_after_build_with_prev_stage false "/w" "/b" true true ⟨"p", "f", "g"⟩).1 rfl rfl
  exact h.trans (by decide)

/- ### C2 -/

/-- C2: on a platform whose shared-library suffix is `dylib`, the
expected-files rewrite turns `lib/libclang.so` into
`lib/libclang.dylib` but also drops `lib/libclangAST.a` (and every
other entry not ending in `.so`) from the checked list, because the
list comprehension filters on `endswith('.so')` instead of mapping
conditionally. -/
theorem sanity_check_drops_non_shlib_files :
    sanityCheckFilesRewrite "dylib" ["lib/libclang.so", "lib/libclangAST.a"] =
      ["lib/libclang.dylib"] ∧
    "lib/libclangAST.a" ∉
      sanityCheckFilesRewrite "dylib" ["lib/libclang.so", "lib/libclangAST.a"] := by
  decide

/- ### C3 -/

/-- C3 counterexample: the default-target mapping has five entries
with five distinct architecture keys (including RISCV64), not four. -/
theorem default_targets_map_has_five_entries :
    DEFAULT_TARGETS_MAP.length = 5 ∧
    (DEFAULT_TARGETS_MAP.map Prod.fst).Nodup ∧
    lookupDefaultTargets CpuArch.RISCV64 = some ["RISCV"] := by
  decide

/-- C3 (amended): with no explicit target list and no GPU accelerator
dependency, target selection yields exactly the single default backend
mapped from the host CPU architecture; the mapping has exactly five
supported architectures; an architecture outside the mapping is a
fatal configuration error. -/
theorem default_target_selection_single_backend :
    DEFAULT_TARGETS_MAP.length = 5 ∧
    (∀ (a : CpuArch) (ts : List String), lookupDefaultTargets a = some ts →
      ts.length = 1 ∧
      ∀ (deps : List String) (ct : Bool),
        (deps.map pyLower).contains "cuda" = false →
        (deps.map pyLower).contains "rocr-runtime" = false → ct = false →
        defaultBuildTargets a deps ct = .ok ts) ∧
    (∀ a : CpuArch, lookupDefaultTargets a = none →
      ∀ (deps : List String) (ct : Bool),
        defaultBuildTargets a deps ct = .error (.noDefaultTargets a)) := by
  refine ⟨by decide, ?_, ?_⟩
  · intro a ts h
    refine ⟨lookupDefaultTargets_prop (fun ts => ts.length = 1) (by decide) a ts h, ?_⟩
    intro deps ct hcuda hrocr hct
    subst hct
    simp at hcuda hrocr
    simp only [defaultBuildTargets, h]
    simp
    rw [if_neg (by simpa using hrocr), if_neg (by simpa using hcuda)]
  · intro a h deps ct
    simp [defaultBuildTargets, h]

/-- C3 amended witness at two concrete architectures. -/
theorem default_target_selection_single_backend_witness :
    defaultBuildTargets CpuArch.X86_64 [] false = Except.ok ["X86"] ∧
    defaultBuildTargets (CpuArch.OTHER "ia64") [] false =
      Except.error (InitError.noDefaultTargets (CpuArch.OTHER "ia64")) := by
  constructor
  · exact (default_target_selection_single_backend.2.1 CpuArch.X86_64 ["X86"] rfl).2
      [] false rfl rfl rfl
  · exact default_target_selection_single_backend.2.2 (CpuArch.OTHER "ia64") rfl [] false

/- ### C8 -/

/-- C8: for project `polly` the profile adds exactly the three
expected library files and two expected directories, sets the test
target set to `check-polly` alone, and with bootstrap disabled the
build runs a single stage. -/
theorem polly_profile_and_single_stage :
    pollyConfig ["X86"] initProjectState =
      { testTargets := ["check-polly"],
        checkFiles := ["lib/LLVMPolly.so", "lib/libPolly.a", "lib/libPollyISL.a"],
        checkDirs := ["lib/cmake/polly", "include/polly"],
        configopts := [] } ∧
    buildStages false = [Stage.stage1] := by
  decide

/- ### C4 -/

/-- C4: an explicit target list with entries outside `CLANG_TARGETS`
is rejected naming exactly the unknown entries (the `unknownOf`
filter, whose members are exactly the given targets not in the known
list), and a list of known targets containing the legacy name
`MBlaze` — which is itself in `CLANG_TARGETS` — is rejected as
unsupported. -/
theorem explicit_targets_validation :
    ("MBlaze" ∈ CLANG_TARGETS) ∧
    (∀ (bts : List String) (x : String), x ∈ unknownOf bts ↔ x ∈ bts ∧ x ∉ CLANG_TARGETS) ∧
    (∀ bts : List String, unknownOf bts ≠ [] →
      validateBuildTargets bts = .error (.unknownTargets (unknownOf bts))) ∧
    (∀ bts : List String, unknownOf bts = [] → "MBlaze" ∈ bts →
      validateBuildTargets bts = .error .mblazeUnsupported) := by
  refine ⟨by decide, ?_, ?_, ?_⟩
  · intro bts x
    simp [unknownOf, List.mem_filter]
  · intro bts h
    simp [validateBuildTargets, h]
  · intro bts h hm
    simp [validateBuildTargets, h, hm]

/-- C4 witness: the error names only the unknown entries, not the
whole list, and a known-targets list containing MBlaze is rejected. -/
theorem explicit_targets_validation_witness :
    validateBuildTargets ["X86", "Foo", "Bar"] =
      .error (.unknownTargets ["Foo", "Bar"]) ∧
    validateBuildTargets ["X86", "MBlaze"] = .error .mblazeUnsupported := by
  constructor
  · have h := explicit_targets_validation.2.2.1 ["X86", "Foo", "Bar"] (by decide)
    exact h.trans (by decide)
  · exact explicit_targets_validation.2.2.2 ["X86", "MBlaze"] (by decide) (by decide)

/- ### C6 -/

/-- C6: with the version check passing, requesting bootstrap for a
project whose lowercased name is not `clang` makes initialization
fail with the bootstrap error and no build stage executes; with
bootstrap unset, or set for Clang, the bootstrap check passes. -/
theorem bootstrap_only_for_clang :
    ∀ inp : InitInput, looseLT inp.version "18.1.6" = false →
      ((inp.bootstrap = true → pyLower inp.name ≠ "clang" →
        runPipeline inp = .error .bootstrapNotClang ∧ executedStages inp = []) ∧
       ((inp.bootstrap = false ∨ pyLower inp.name = "clang") →
        bootstrapCheck inp.bootstrap inp.name = .ok ())) := by
  intro inp hv
  constructor
  · intro hb hn
    have hbc : bootstrapCheck inp.bootstrap inp.name = .error .bootstrapNotClang := by
      simp [bootstrapCheck, hb, hn]
    have hi : initStep inp = .error .bootstrapNotClang := by
      simp [initStep, versionCheck, hv, hbc]
    constructor
    · simp [runPipeline, hi]
    · simp [executedStages, runPipeline, hi]
  · intro h
    rcases h with hb | hn
    · simp [bootstrapCheck, hb]
    · simp [bootstrapCheck, hn]

/-- C6 witness: bootstrap requested for Polly fails before any stage. -/
theorem bootstrap_only_for_clang_witness :
    runPipeline { version := "19.1.0", bootstrap := true, name := "Polly",
                  buildTargets := some ["X86"], depNames := [],
                  arch := CpuArch.X86_64, cudaToolchain := false } =
      .error .bootstrapNotClang ∧
    executedStages { version := "19.1.0", bootstrap := true, name := "Polly",
                     buildTargets := some ["X86"], depNames := [],
                     arch := CpuArch.X86_64, cudaToolchain := false } = [] := by
  have h := bootstrap_only_for_clang
    { version := "19.1.0", bootstrap := true, name := "Polly",
      buildTargets := some ["X86"], depNames := [],
      arch := CpuArch.X86_64, cudaToolchain := false } (by decide)
  exact h.1 rfl (by decide)

/- ### C7 -/

/-- C7: in default selection with both a CUDA dependency (or CUDA
toolchain) and a ROCR-Runtime dependency present, the selected targets
are the CPU default backends followed by `NVPTX` and then `AMDGPU` —
compute backend before vendor-runtime backend, both after the CPU
default — and the resulting sequence has no duplicates. -/
theorem gpu_targets_order_and_nodup :
    ∀ (a : CpuArch) (ts : List String), lookupDefaultTargets a = some ts →
      ∀ (deps : List String) (ct : Bool),
        (deps.map pyLower).contains "cuda" = true →
        (deps.map pyLower).contains "rocr-runtime" = true →
        defaultBuildTargets a deps ct = .ok (ts ++ ["NVPTX", "AMDGPU"]) ∧
        (ts ++ ["NVPTX", "AMDGPU"]).Nodup := by
  intro a ts h deps ct hcuda hrocr
  constructor
  · simp at hcuda hrocr
    simp only [defaultBuildTargets, h]
    simp
    rw [if_pos hrocr, if_pos (Or.inl hcuda)]
    simp
  · exact lookupDefaultTargets_prop (fun ts => (ts ++ ["NVPTX", "AMDGPU"]).Nodup)
      (by decide) a ts h

/-- C7 witness at x86-64 with CUDA and ROCR-Runtime dependencies. -/
theorem gpu_targets_order_and_nodup_witness :
    defaultBuildTargets CpuArch.X86_64 ["CUDA", "ROCR-Runtime"] false =
      .ok ["X86", "NVPTX", "AMDGPU"] ∧
    (["X86", "NVPTX", "AMDGPU"] : List String).Nodup := by
  have h := gpu_targets_order_and_nodup CpuArch.X86_64 ["X86"] rfl
    ["CUDA", "ROCR-Runtime"] false (by decide) (by decide)
  exact ⟨h.1.trans (by decide), by decide⟩

/- ### C10 -/

/-- C10: a version that the loose ordering places below 18.1.6 makes
initialization fail with the unsupported-version error naming that
version; a version at or above 18.1.6 passes the version check. -/
theorem version_gate_18_1_6 :
    ∀ inp : InitInput,
      (looseLT inp.version "18.1.6" = true →
        initStep inp = .error (.unsupportedVersion inp.version)) ∧
      (looseLT inp.version "18.1.6" = false → versionCheck inp.version = .ok ()) := by
  intro inp
  constructor
  · intro h
    simp [initStep, versionCheck, h]
  · intro h
    simp [versionCheck, h]

/-- C10 witness: 18.1.5 is rejected naming the version, 18.1.6 passes. -/
theorem version_gate_18_1_6_witness :
    initStep { version := "18.1.5", bootstrap := false, name := "clang",
               buildTargets := some ["X86"], depNames := [],
               arch := CpuArch.X86_64, cudaToolchain := false } =
      .error (.unsupportedVersion "18.1.5") ∧
    versionCheck "18.1.6" = .ok () := by
  constructor
  · exact (version_gate_18_1_6
      { version := "18.1.5", bootstrap := false, name := "clang",
        buildTargets := some ["X86"], depNames := [],
        arch := CpuArch.X86_64, cudaToolchain := false }).1 (by decide)
  · exact (version_gate_18_1_6
      { version := "18.1.6", bootstrap := false, name := "clang",
        buildTargets := some ["X86"], depNames := [],
        arch := CpuArch.X86_64, cudaToolchain := false }).2 (by decide)

/- ### C5 helper lemmas -/

/-- Is the head of the remainder a non-digit (or the remainder empty)?
Exactly the condition under which a greedy digit run stops. -/
def notDigitStart : List Char → Bool
  | [] => true
  | c :: _ => !c.isDigit

theorem digit_ne_space (ch : Char) (h : ch.isDigit = true) : (ch == ' ') = false := by
  cases heq : ch == ' ' with
  | false => rfl
  | true => exact absurd (eq_of_beq heq ▸ h) (by decide)

theorem dropWhile_spaces_replicate (k : Nat) (l : List Char) :
    (List.replicate k ' ' ++ l).dropWhile (fun x => x == ' ') =
      l.dropWhile (fun x => x == ' ') := by
  induction k with
  | zero => simp
  | succ k ih => simp [List.replicate_succ, List.dropWhile_cons, ih]

theorem spaces1_replicate (k : Nat) (hk : 1 ≤ k) (l : List Char)
    (hl : l.dropWhile (fun x => x == ' ') = l) :
    spaces1 (List.replicate k ' ' ++ l) = some l := by
  cases k with
  | zero => omega
  | succ k =>
    simp [List.replicate_succ, spaces1, dropWhile_spaces_replicate, hl]

theorem stripChars_append (w rest : List Char) : stripChars w (w ++ rest) = some rest := by
  induction w with
  | nil => simp [stripChars]
  | cons c cs ih => simp [stripChars, ih]

theorem takeWhile_digits_append (ds rest : List Char) (hd : ds.all Char.isDigit = true)
    (hr : notDigitStart rest = true) :
    (ds ++ rest).takeWhile Char.isDigit = ds ∧
    (ds ++ rest).dropWhile Char.isDigit = rest := by
  induction ds with
  | nil =>
    cases rest with
    | nil => simp
    | cons c cs =>
      have hcd : c.isDigit = false := by simpa [notDigitStart] using hr
      simp [List.takeWhile_cons, List.dropWhile_cons, hcd]
  | cons d ds ih =>
    have hd1 : d.isDigit = true ∧ ds.all Char.isDigit = true := by
      simpa [List.all_cons] using hd
    obtain ⟨ih1, ih2⟩ := ih hd1.2
    constructor <;> simp [List.takeWhile_cons, List.dropWhile_cons, hd1.1, ih1, ih2]

theorem digits1_append (ds rest : List Char) (hne : ds ≠ [])
    (hd : ds.all Char.isDigit = true) (hr : notDigitStart rest = true) :
    digits1 (ds ++ rest) = some (valOfDigits ds, rest) := by
  obtain ⟨h1, h2⟩ := takeWhile_digits_append ds rest hd hr
  simp [digits1, h1, h2, List.isEmpty_iff, hne]

/-- A line of the exact shape the `Failed` regex accepts (one or more
spaces, `Failed`, one or more spaces, `:`, one or more spaces, a digit
run, then anything not extending the digit run) yields the value of
its digit run. -/
theorem matchCountLine_failed (a b c : Nat) (ds rest : List Char)
    (ha : 1 ≤ a) (hb : 1 ≤ b) (hc : 1 ≤ c) (hne : ds ≠ [])
    (hd : ds.all Char.isDigit = true) (hr : notDigitStart rest = true) :
    matchCountLine failedWord
      (List.replicate a ' ' ++ failedWord ++ List.replicate b ' ' ++ [':'] ++
        List.replicate c ' ' ++ ds ++ rest) = some (valOfDigits ds) := by
  have hdd : (ds ++ rest).dropWhile (fun x => x == ' ') = ds ++ rest := by
    cases ds with
    | nil => exact absurd rfl hne
    | cons d ds2 =>
      have hd1 : d.isDigit = true := by
        have h := hd
        simp [List.all_cons] at h
        exact h.1
      simp [List.dropWhile_cons, digit_ne_space d hd1]
  have e6 := digits1_append ds rest hne hd hr
  have e5 := spaces1_replicate c hc (ds ++ rest) hdd
  have e4 := stripChars_append [':'] (List.replicate c ' ' ++ (ds ++ rest))
  have e3 := spaces1_replicate b hb
    ([':'] ++ (List.replicate c ' ' ++ (ds ++ rest)))
    (by simp [List.dropWhile_cons])
  have e2 := stripChars_append failedWord
    (List.replicate b ' ' ++ ([':'] ++ (List.replicate c ' ' ++ (ds ++ rest))))
  have e1 := spaces1_replicate a ha
    (failedWord ++ (List.replicate b ' ' ++ ([':'] ++ (List.replicate c ' ' ++ (ds ++ rest)))))
    (by simp [failedWord, List.dropWhile_cons])
  simp only [matchCountLine, List.append_assoc]
  rw [e1]
  simp only [Option.bind_eq_bind, Option.some_bind]
  rw [e2]
  simp only [Option.some_bind]
  rw [e3]
  simp only [Option.some_bind]
  rw [e4]
  simp only [Option.some_bind]
  rw [e5]
  simp only [Option.some_bind]
  rw [e6]
  simp only [Option.some_bind]
  rfl

/- ### C5 -/

/-- C5 counterexample: the output `Failed : 3` (no leading
whitespace) matches the claim's pattern reading (optional leading
whitespace) with count 3, yet the code's regex ` +Failed +: +` does
not match it, no `Passed` line matches either, and the test step
raises the could-not-extract fatal error even under a threshold of 5,
where the claim would report failure count 3 and no error. -/
theorem failed_line_requires_leading_space :
    claimCountLine failedWord "Failed : 3".data = some 3 ∧
    extractNumFailed "Failed : 3" = none ∧
    testStepCheck "Failed : 3" 5 = .error .cannotExtract := by
  decide

/-- C5 (amended): a line of the form `Failed : N` preceded by at
least one whitespace character yields failure count N; with no
`Failed` match the `Passed` pattern yields failure count 0; with
neither pattern the test step fails fatally rather than assuming
success; and the too-many-failures fatal error, reporting the actual
count, occurs exactly when the extracted count exceeds the configured
maximum. -/
theorem test_step_result_extraction :
    (∀ (a b c : Nat) (ds rest : List Char), 1 ≤ a → 1 ≤ b → 1 ≤ c → ds ≠ [] →
      ds.all Char.isDigit = true → notDigitStart rest = true →
      matchCountLine failedWord
        (List.replicate a ' ' ++ failedWord ++ List.replicate b ' ' ++ [':'] ++
          List.replicate c ' ' ++ ds ++ rest) = some (valOfDigits ds)) ∧
    (∀ (out : String) (maxF n : Nat), firstCount failedWord out = some n →
      testStepCheck out maxF =
        if n > maxF then .error (.tooManyFailed n) else .ok ()) ∧
    (∀ (out : String) (maxF : Nat), firstCount failedWord out = none →
      firstCount passedWord out ≠ none → testStepCheck out maxF = .ok ()) ∧
    (∀ (out : String) (maxF : Nat), firstCount failedWord out = none →
      firstCount passedWord out = none → testStepCheck out maxF = .error .cannotExtract) ∧
    (∀ (out : String) (maxF n : Nat),
      testStepCheck out maxF = .error (.tooManyFailed n) ↔
        extractNumFailed out = some n ∧ n > maxF) := by
  refine ⟨matchCountLine_failed, ?_, ?_, ?_, ?_⟩
  · intro out maxF n h
    simp [testStepCheck, extractNumFailed, h]
  · intro out maxF h1 h2
    obtain ⟨m, hm⟩ : ∃ m, firstCount passedWord out = some m := by
      cases hfc : firstCount passedWord out with
      | none => exact absurd hfc h2
      | some m => exact ⟨m, rfl⟩
    simp [testStepCheck, extractNumFailed, h1, hm]
  · intro out maxF h1 h2
    simp [testStepCheck, extractNumFailed, h1, h2]
  · intro out maxF n
    constructor
    · intro h
      cases he : extractNumFailed out with
      | none =>
        have ht : testStepCheck out maxF = .error .cannotExtract := by
          simp [testStepCheck, he]
        rw [ht] at h
        simp at h
      | some m =>
        have ht : testStepCheck out maxF =
            if m > maxF then .error (.tooManyFailed m) else .ok () := by
          simp [testStepCheck, he]
        rw [ht] at h
        by_cases hm : m > maxF
        · rw [if_pos hm] at h
          have hmn : m = n := by simpa using h
          subst hmn
          exact ⟨rfl, hm⟩
        · rw [if_neg hm] at h
          simp at h
    · rintro ⟨he, hn⟩
      simp [testStepCheck, he, hn]

/-- C5 amended witness at the spec's two concrete outputs. -/
theorem test_step_result_extraction_witness :
    testStepCheck "   Failed   : 3" 0 = .error (.tooManyFailed 3) ∧
    testStepCheck "   Passed   : 10" 0 = .ok () := by
  constructor
  · have h := test_step_result_extraction.2.1 "   Failed   : 3" 0 3 (by decide)
    exact h.trans (by decide)
  · exact test_step_result_extraction.2.2.1 "   Passed   : 10" 0 (by decide) (by decide)

/- ### C9 helper lemmas: the string order used by Python min -/

theorem charListLT_irrefl : ∀ a : List Char, charListLT a a = false
  | [] => rfl
  | c :: cs => by simp [charListLT, charListLT_irrefl cs]

theorem charListLT_trans :
    ∀ (a b c0 : List Char), charListLT a b = true → charListLT b c0 = true →
      charListLT a c0 = true := by
  intro a
  induction a with
  | nil =>
    intro b c0 hab hbc
    cases b with
    | nil => simp [charListLT] at hab
    | cons y bs =>
      cases c0 with
      | nil => simp [charListLT] at hbc
      | cons z cs => simp [charListLT]
  | cons x as ih =>
    intro b c0 hab hbc
    cases b with
    | nil => simp [charListLT] at hab
    | cons y bs =>
      cases c0 with
      | nil => simp [charListLT] at hbc
      | cons z cs =>
        simp only [charListLT] at hab hbc ⊢
        by_cases h1 : x.toNat < y.toNat
        · by_cases h2 : y.toNat < z.toNat
          · simp [Nat.lt_trans h1 h2]
          · rw [if_neg h2] at hbc
            by_cases h3 : y.toNat = z.toNat
            · have hxz : x.toNat < z.toNat := by omega
              simp [hxz]
            · rw [if_neg h3] at hbc
              simp at hbc
        · rw [if_neg h1] at hab
          by_cases h3 : x.toNat = y.toNat
          · rw [if_pos h3] at hab
            by_cases h2 : y.toNat < z.toNat
            · have hxz : x.toNat < z.toNat := by omega
              simp [hxz]
            · rw [if_neg h2] at hbc
              by_cases h4 : y.toNat = z.toNat
              · rw [if_pos h4] at hbc
                have h5 : ¬x.toNat < z.toNat := by omega
                have h6 : x.toNat = z.toNat := by omega
                rw [if_neg h5, if_pos h6]
                exact ih bs cs hab hbc
              · rw [if_neg h4] at hbc
                simp at hbc
          · rw [if_neg h3] at hab
            simp at hab

theorem charListLT_conn :
    ∀ (a b : List Char), charListLT a b = false → charListLT b a = false → a = b := by
  intro a
  induction a with
  | nil =>
    intro b hab _
    cases b with
    | nil => rfl
    | cons y bs => simp [charListLT] at hab
  | cons x as ih =>
    intro b hab hba
    cases b with
    | nil => simp [charListLT] at hba
    | cons y bs =>
      simp only [charListLT] at hab hba
      by_cases h1 : x.toNat < y.toNat
      · rw [if_pos h1] at hab
        simp at hab
      · by_cases h2 : y.toNat < x.toNat
        · rw [if_pos h2] at hba
          simp at hba
        · have h3 : x.toNat = y.toNat := by omega
          rw [if_neg h1, if_pos h3] at hab
          rw [if_neg h2, if_pos h3.symm] at hba
          have hxy : x = y := Char.eq_of_val_eq (UInt32.ext h3)
          rw [hxy, ih bs hab hba]

theorem strLTb_trans (a b c : String) (h1 : strLTb a b = true) (h2 : strLTb b c = true) :
    strLTb a c = true :=
  charListLT_trans a.data b.data c.data h1 h2

theorem strLTb_irrefl (a : String) : strLTb a a = false :=
  charListLT_irrefl a.data

theorem strLTb_conn (a b : String) (h1 : strLTb a b = false) (h2 : strLTb b a = false) :
    a = b := by
  cases a with
  | mk da =>
    cases b with
    | mk db => exact congrArg String.mk (charListLT_conn da db h1 h2)

/-- The left fold Python `min` performs: its result is one of the
candidates, and no candidate is strictly below it. -/
theorem foldMin_spec (x : String) (xs : List String) :
    (xs.foldl (fun m s => if strLTb s m then s else m) x = x ∨
     xs.foldl (fun m s => if strLTb s m then s else m) x ∈ xs) ∧
    (∀ y, (y = x ∨ y ∈ xs) →
      strLTb y (xs.foldl (fun m s => if strLTb s m then s else m) x) = false) := by
  induction xs generalizing x with
  | nil =>
    refine ⟨Or.inl rfl, ?_⟩
    intro y hy
    rcases hy with rfl | hy2
    · exact strLTb_irrefl y
    · simp at hy2
  | cons s ss ih =>
    simp only [List.foldl_cons]
    obtain ⟨ih1, ih2⟩ := ih (if strLTb s x then s else x)
    constructor
    · rcases ih1 with h | h
      · rw [h]
        by_cases hs : strLTb s x = true
        · right
          rw [if_pos hs]
          exact List.mem_cons_self s ss
        · left
          rw [if_neg hs]
      · right
        exact List.mem_cons_of_mem s h
    · intro y hy
      set F := ss.foldl (fun m s => if strLTb s m then s else m)
        (if strLTb s x then s else x) with hF
      rcases hy with hyx | hy2
      · rw [hyx]
        by_cases hs : strLTb s x = true
        · cases hb : strLTb x F with
          | false => rfl
          | true =>
            exfalso
            have hsf : strLTb s F = false := ih2 s (Or.inl (by rw [if_pos hs]))
            have hst : strLTb s F = true := strLTb_trans _ _ _ hs hb
            rw [hst] at hsf
            cases hsf
        · exact ih2 x (Or.inl (by rw [if_neg hs]))
      · rcases List.mem_cons.mp hy2 with hys | hy3
        · rw [hys]
          by_cases hs : strLTb s x = true
          · exact ih2 s (Or.inl (by rw [if_pos hs]))
          · cases hb : strLTb s F with
            | false => rfl
            | true =>
              exfalso
              have hxf : strLTb x F = false := ih2 x (Or.inl (by rw [if_neg hs]))
              cases hxy : strLTb x s with
              | true =>
                have hxt : strLTb x F = true := strLTb_trans _ _ _ hxy hb
                rw [hxt] at hxf
                cases hxf
              | false =>
                have hsx : strLTb s x = false := by
                  cases hc : strLTb s x with
                  | false => rfl
                  | true => exact absurd hc hs
                have hxs : x = s := strLTb_conn x s hxy hsx
                rw [hxs] at hxf
                rw [hb] at hxf
                cases hxf
        · exact ih2 y (Or.inr hy3)

/-- Python `min` on a non-empty string list: a member of the list that
no member is strictly below. -/
theorem pyMin_spec : ∀ l : List String, l ≠ [] →
    pyMinString l ∈ l ∧ ∀ x ∈ l, strLTb x (pyMinString l) = false := by
  intro l hl
  cases l with
  | nil => exact absurd rfl hl
  | cons x xs =>
    obtain ⟨h1, h2⟩ := foldMin_spec x xs
    constructor
    · rcases h1 with h | h
      · simp only [pyMinString]
        rw [h]
        exact List.mem_cons_self x xs
      · simp only [pyMinString]
        exact List.mem_cons_of_mem x h
    · intro y hy
      have hm := h2 y (by
        rcases List.mem_cons.mp hy with h | h
        · exact Or.inl h
        · exact Or.inr h)
      simpa [pyMinString] using hm

/- ### C9 -/

/-- C9: with `NVPTX` among the build targets, an empty capability list
from both the easyconfig and the framework configuration is a fatal
error; a non-empty list with no default capability set configures the
default CUDA architecture as the minimum of the requested list (under
the string order Python `min` uses, a least element of the list) and
only prints a warning, still returning successfully. -/
theorem nvptx_cuda_capability_selection :
    (∀ d : Option String, configureNvptx [] [] d = .error .noCudaComputeCapabilities) ∧
    (∀ ec cfg : List String, pyOrList cfg ec ≠ [] →
      configureNvptx ec cfg none =
        .ok (["-DCLANG_OPENMP_NVPTX_DEFAULT_ARCH=sm_" ++
                pyReplace (pyMinString (pyOrList cfg ec)) "." "",
              "-DLIBOMPTARGET_NVPTX_COMPUTE_CAPABILITIES=" ++
                joinWith "," ((pyOrList cfg ec).map (fun cc => pyReplace cc "." ""))],
             true)) ∧
    (∀ l : List String, l ≠ [] →
      pyMinString l ∈ l ∧ ∀ x ∈ l, strLTb x (pyMinString l) = false) := by
  refine ⟨fun d => rfl, ?_, pyMin_spec⟩
  intro ec cfg h
  simp [configureNvptx, List.isEmpty_iff, h]

/-- C9 witness: capabilities 7.0 and 6.0 with no default pick sm_60
with a warning; empty capabilities are a fatal error. -/
theorem nvptx_cuda_capability_selection_witness :
    configureNvptx ["7.0", "6.0"] [] none =
      .ok (["-DCLANG_OPENMP_NVPTX_DEFAULT_ARCH=sm_60",
            "-DLIBOMPTARGET_NVPTX_COMPUTE_CAPABILITIES=70,60"], true) ∧
    pyMinString ["7.0", "6.0"] = "6.0" ∧
    configureNvptx [] [] none = .error .noCudaComputeCapabilities := by
  refine ⟨?_, by decide, nvptx_cuda_capability_selection.1 none⟩
  have h := nvptx_cuda_capability_selection.2.1 ["7.0", "6.0"] [] (by decide)
  exact h.trans (by decide)
